import Mathlib

/-!
Verification of `internal/pkg/prometheus/prometheus.go` (the `Get` scrape
function of nri-prometheus) against its natural-language specification.

The Go function is embedded shallowly:
* third-party collaborators (net/http request construction, the HTTP
  transport `client.Do`, the `expfmt` text decoder) are modelled as an
  abstract environment `ScrapeEnv` whose fields give the outcome of each
  call, since their code is not part of this repository;
* the two process-wide metric accumulators (`targetSize` gauge vector and
  `totalScrapedPayload` counter) are modelled as an explicit `Metrics`
  state threaded through `Get`;
* Go's `map[string]dto.MetricFamily` is modelled as an association list
  with overwrite-on-insert semantics; a `nil` map versus an empty map is
  the distinction `none` versus `some []`;
* `float64` byte counts are modelled as exact rationals.
-/

set_option autoImplicit false

namespace NriPrometheus

/-- One sample of a metric family: a label set, a value and an optional
timestamp (the parts of `dto.Metric` relevant here). -/
structure Sample where
  labels : List (String × String)
  value : Rat
  timestamp : Option Int
deriving DecidableEq, Repr

/-- A decoded metric family (`dto.MetricFamily`): name, help text, type and
its samples. -/
structure MetricFamily where
  name : String
  help : String
  mtype : String
  metric : List Sample
deriving DecidableEq, Repr

/-- Go's `MetricFamiliesByName = map[string]dto.MetricFamily`, as an
association list from family name to family. -/
abbrev MetricFamiliesByName : Type := List (String × MetricFamily)

/-- Go map assignment `m[k] = v`: any previous binding of `k` is replaced. -/
def mapInsert (m : MetricFamiliesByName) (k : String) (v : MetricFamily) :
    MetricFamiliesByName :=
  (m.filter (fun p => p.1 != k)) ++ [(k, v)]

/-- Go map lookup `m[k]`. -/
def mapGet (m : MetricFamiliesByName) (k : String) : Option MetricFamily :=
  (m.find? (fun p => p.1 == k)).map (fun p => p.2)

/-- The keys of the mapping. -/
def mapKeys (m : MetricFamiliesByName) : List String :=
  m.map (fun p => p.1)

/-- The five kinds of error `Get` can return: request construction failure,
transport failure from `client.Do`, the HTTP status rejection built with
`fmt.Errorf`, a body read failure from `ioutil.ReadAll`, and a decoder
failure other than `io.EOF`. -/
inductive ScrapeError where
  | requestConstruction (msg : String)
  | transport (msg : String)
  | httpStatus (code : Int)
  | bodyRead (msg : String)
  | decode (msg : String)
deriving DecidableEq, Repr

/-- An `http.Request` as `Get` builds it: method, URL and headers (each
`Header.Add` call appends one name/value pair). -/
structure Request where
  method : String
  url : String
  header : List (String × String)
deriving DecidableEq, Repr

/-- The parts of an `*http.Response` that `Get` consumes: the status code
and the outcome of reading the whole body (`ioutil.ReadAll(resp.Body)`),
which is either a read error or the byte string. -/
structure Response where
  statusCode : Int
  body : Except String (List Nat)

/-- Abstract environment standing for the third-party collaborators of
`Get`:
* `urlCheck url` is `some msg` when `http.NewRequest("GET", url, nil)`
  fails (malformed URL) and `none` when it succeeds;
* `doRequest` is the caller-supplied `HTTPDoer.Do`;
* `decode body` is the sequence of families the `expfmt` text decoder
  yields for `body`, paired with `some msg` if after them it fails with an
  error other than `io.EOF`, or `none` if it ends with a clean `io.EOF`. -/
structure ScrapeEnv where
  urlCheck : String → Option String
  doRequest : Request → Except String Response
  decode : List Nat → List MetricFamily × Option String

/-- The process-wide observability state: the `target`-labelled size gauge
vector and the cumulative scraped-bytes counter. -/
structure Metrics where
  targetSize : List (String × Rat)
  totalScrapedPayload : Rat
deriving DecidableEq, Repr

/-- `targetSize.With(prom.Labels{"target": k}).Set(v)`: the series labelled
`k` is replaced by `v`, all other series are kept. -/
def gaugeSet (g : List (String × Rat)) (k : String) (v : Rat) :
    List (String × Rat) :=
  (g.filter (fun p => p.1 != k)) ++ [(k, v)]

/-- Read the gauge series labelled `k` (`none` when unset). -/
def gaugeGet (g : List (String × Rat)) (k : String) : Option Rat :=
  (g.find? (fun p => p.1 == k)).map (fun p => p.2)

/-- `ResetTotalScrapedPayload`: `totalScrapedPayload.Set(0)`. -/
def ResetTotalScrapedPayload (st : Metrics) : Metrics :=
  { st with totalScrapedPayload := 0 }

/-- `ResetTargetSize`: `targetSize.Reset()`. -/
def ResetTargetSize (st : Metrics) : Metrics :=
  { st with targetSize := [] }

/-- `XPrometheusScrapeTimeoutHeader` constant. -/
def XPrometheusScrapeTimeoutHeader : String := "X-Prometheus-Scrape-Timeout-Seconds"

/-- `AcceptHeader` constant. -/
def AcceptHeader : String := "Accept"

/-- The decode loop of `Get`: `d.Decode(&mf)` repeatedly. `fams` are the
families the decoder yields before stopping; it then stops with `io.EOF`
(`derr = none`, loop breaks and the accumulated map is kept) or with
another error (`derr = some e`, `Get` returns `nil` and the error).
Every successfully decoded family is inserted by `mfs[mf.GetName()] = mf`
before the stop is reached. -/
def decodeLoop : List MetricFamily → Option String → MetricFamiliesByName →
    Except String MetricFamiliesByName
  | [], none, mfs => .ok mfs
  | [], some e, _ => .error e
  | mf :: rest, derr, mfs => decodeLoop rest derr (mapInsert mfs mf.name mf)

/-- `Get(client, url, acceptHeader, fetchTimeout)` from
`internal/pkg/prometheus/prometheus.go`, as explicit state passing over
`Metrics`. The returned triple is ((result map or `nil`, error or `nil`),
metrics state after the call). -/
def Get (env : ScrapeEnv) (st : Metrics)
    (url acceptHeader fetchTimeout : String) :
    (Option MetricFamiliesByName × Option ScrapeError) × Metrics :=
  match env.urlCheck url with
  | some e => ((some [], some (.requestConstruction e)), st)
  | none =>
    match env.doRequest
        { method := "GET", url := url,
          header := [(AcceptHeader, acceptHeader),
                     (XPrometheusScrapeTimeoutHeader, fetchTimeout)] } with
    | .error e => ((some [], some (.transport e)), st)
    | .ok resp =>
      if resp.statusCode < 200 ∨ resp.statusCode > 300 then
        ((none, some (.httpStatus resp.statusCode)), st)
      else
        match resp.body with
        | .error e => ((some [], some (.bodyRead e)), st)
        | .ok body =>
          match decodeLoop (env.decode body).1 (env.decode body).2 [] with
          | .error e => ((none, some (.decode e)), st)
          | .ok m =>
            ((some m, none),
             { targetSize := gaugeSet st.targetSize url ((body.length : Rat)),
               totalScrapedPayload :=
                 st.totalScrapedPayload + ((body.length : Rat)) })

/-! ## Helper lemmas -/

/-- Looking a key up after an overwrite-insert into an association list:
the inserted key reads the new value, other keys are unchanged. Shared
shape of `mapInsert`/`mapGet` and `gaugeSet`/`gaugeGet`. -/
lemma alist_find_set {β : Type} (k n : String) (v : β) (g : List (String × β)) :
    ((g.filter (fun p => p.1 != k) ++ [(k, v)]).find? (fun p => p.1 == n)).map
        (fun p => p.2)
      = if n = k then some v
        else (g.find? (fun p => p.1 == n)).map (fun p => p.2) := by
  induction g with
  | nil =>
    rcases eq_or_ne n k with rfl | h
    · simp
    · simp [List.find?_cons, Ne.symm h, h]
  | cons a g ih =>
    rcases a with ⟨a, b⟩
    rcases eq_or_ne a k with rfl | hak
    · have hfilter : ((a, b) :: g).filter (fun p => p.1 != a)
          = g.filter (fun p => p.1 != a) := by
        simp [List.filter_cons]
      rcases eq_or_ne n a with rfl | hna
      · rw [hfilter, ih]; simp
      · rw [hfilter, ih, if_neg hna, if_neg hna,
          List.find?_cons_of_neg _ (by simpa using Ne.symm hna)]
    · have hfilter : ((a, b) :: g).filter (fun p => p.1 != k)
          = (a, b) :: g.filter (fun p => p.1 != k) := by
        simp [List.filter_cons, hak]
      rcases eq_or_ne a n with rfl | han
      · rw [hfilter, List.cons_append,
          List.find?_cons_of_pos _ (by simp),
          List.find?_cons_of_pos _ (by simp), if_neg hak]
      · rw [hfilter, List.cons_append,
          List.find?_cons_of_neg _ (by simpa using han), ih,
          List.find?_cons_of_neg _ (by simpa using han)]

lemma mapGet_insert (m : MetricFamiliesByName) (k : String) (v : MetricFamily)
    (n : String) :
    mapGet (mapInsert m k v) n = if n = k then some v else mapGet m n := by
  have h := alist_find_set k n v m
  simp only [mapGet, mapInsert]
  exact h

lemma gaugeGet_set_self (g : List (String × Rat)) (k : String) (v : Rat) :
    gaugeGet (gaugeSet g k v) k = some v := by
  have h := alist_find_set k k v g
  rw [if_pos rfl] at h
  simp only [gaugeGet, gaugeSet]
  exact h

lemma gaugeGet_set_ne (g : List (String × Rat)) (k : String) (v : Rat)
    (n : String) (h : n ≠ k) :
    gaugeGet (gaugeSet g k v) n = gaugeGet g n := by
  have h2 := alist_find_set k n v g
  rw [if_neg h] at h2
  simpa [gaugeGet, gaugeSet] using h2

lemma decodeLoop_error (fams : List MetricFamily) :
    ∀ (e : String) (mfs : MetricFamiliesByName),
      decodeLoop fams (some e) mfs = Except.error e := by
  induction fams with
  | nil => intro e mfs; rfl
  | cons f rest ih => intro e mfs; exact ih e _

lemma decodeLoop_ok (fams : List MetricFamily) :
    ∀ mfs : MetricFamiliesByName,
      decodeLoop fams none mfs
        = Except.ok (fams.foldl (fun acc f => mapInsert acc f.name f) mfs) := by
  induction fams with
  | nil => intro mfs; rfl
  | cons f rest ih => intro mfs; exact ih _

/-- A run of the decode loop ends in `ok` only on a clean `io.EOF`, and the
resulting map is the left fold of overwrite-inserts of the decoded
families. -/
lemma decodeLoop_ok_inv (fams : List MetricFamily) (derr : Option String)
    (mfs m : MetricFamiliesByName)
    (h : decodeLoop fams derr mfs = Except.ok m) :
    m = fams.foldl (fun acc f => mapInsert acc f.name f) mfs := by
  cases derr with
  | none => rw [decodeLoop_ok] at h; exact (Except.ok.inj h).symm
  | some e => rw [decodeLoop_error] at h; cases h

/-- Lookup in the decode-loop fold: the last-inserted family with the key
name wins (the first one in decode-reverse order). -/
lemma mapGet_foldlInsert (n : String) :
    ∀ (fams : List MetricFamily) (mfs : MetricFamiliesByName),
      mapGet (fams.foldl (fun acc f => mapInsert acc f.name f) mfs) n
        = (fams.reverse.find? (fun f => f.name == n)).or (mapGet mfs n) := by
  intro fams
  induction fams with
  | nil => intro mfs; simp
  | cons f rest ih =>
    intro mfs
    simp only [List.foldl_cons, List.reverse_cons, List.find?_append, ih,
      mapGet_insert, Option.or_assoc]
    rcases hfind : rest.reverse.find? (fun f => f.name == n) with _ | g <;>
      rw [hfind]
    · simp only [Option.none_or]
      rcases eq_or_ne n f.name with heq | hne
      · rw [if_pos heq, List.find?_cons_of_pos _ (by simp [heq])]
        rfl
      · rw [if_neg hne, List.find?_cons_of_neg _ (by simpa using Ne.symm hne)]
        simp
    · rfl

lemma mapGet_decode (fams : List MetricFamily) (derr : Option String)
    (m : MetricFamiliesByName) (h : decodeLoop fams derr [] = Except.ok m)
    (n : String) :
    mapGet m n = fams.reverse.find? (fun f => f.name == n) := by
  rw [decodeLoop_ok_inv fams derr [] m h, mapGet_foldlInsert]
  simp [mapGet]

lemma mem_mapKeys_iff (m : MetricFamiliesByName) (n : String) :
    n ∈ mapKeys m ↔ (mapGet m n).isSome := by
  simp [mapKeys, mapGet, List.find?_isSome, List.mem_map]

/-- Exhaustive case split on the run of `Get`: the five error outcomes
leave the metrics untouched and return the documented result shape; the
success outcome returns a non-`nil` map and `nil` error and performs the
two metric updates. -/
lemma get_shape (env : ScrapeEnv) (st : Metrics) (u a t : String) :
    (∃ e, Get env st u a t
        = ((some [], some (ScrapeError.requestConstruction e)), st))
  ∨ (∃ e, Get env st u a t = ((some [], some (ScrapeError.transport e)), st))
  ∨ (∃ c, Get env st u a t = ((none, some (ScrapeError.httpStatus c)), st))
  ∨ (∃ e, Get env st u a t = ((some [], some (ScrapeError.bodyRead e)), st))
  ∨ (∃ e, Get env st u a t = ((none, some (ScrapeError.decode e)), st))
  ∨ (∃ m n, Get env st u a t =
      ((some m, none),
       { targetSize := gaugeSet st.targetSize u n,
         totalScrapedPayload := st.totalScrapedPayload + n })) := by
  unfold Get
  split
  · exact Or.inl ⟨_, rfl⟩
  · split
    · exact Or.inr (Or.inl ⟨_, rfl⟩)
    · split
      · exact Or.inr (Or.inr (Or.inl ⟨_, rfl⟩))
      · split
        · exact Or.inr (Or.inr (Or.inr (Or.inl ⟨_, rfl⟩)))
        · split
          · exact Or.inr (Or.inr (Or.inr (Or.inr (Or.inl ⟨_, rfl⟩))))
          · exact Or.inr (Or.inr (Or.inr (Or.inr (Or.inr ⟨_, _, rfl⟩))))

/-! ## Concrete instances used by the witnesses -/

/-- A metric family with the given name and help text. -/
def fam (n h : String) : MetricFamily := ⟨n, h, "untyped", []⟩

/-- The empty metrics state. -/
def st0 : Metrics := ⟨[], 0⟩

/-- An environment whose URL parses, whose transport always answers with
`resp`, and whose decoder always yields `dec`. -/
def mkEnv (resp : Response) (dec : List MetricFamily × Option String) :
    ScrapeEnv :=
  ⟨fun _ => none, fun _ => Except.ok resp, fun _ => dec⟩

/-- An environment whose URL fails to parse. -/
def badUrlEnv : ScrapeEnv :=
  ⟨fun _ => some "missing protocol scheme", fun _ => Except.error "unreachable",
   fun _ => ([], none)⟩

/-! ## Claim theorems -/

/-- C1: `Get` accepts a response exactly when its status code is in
`200..300` inclusive: a code strictly below 200 or strictly above 300
yields a `nil` result and an `HTTPStatusError` carrying that code, while a
code in the inclusive range (so both 200 and 300) is never rejected with an
`HTTPStatusError`. -/
theorem get_status_boundary (env : ScrapeEnv) (st : Metrics) (url a t : String)
    (resp : Response)
    (h1 : env.urlCheck url = none)
    (h2 : env.doRequest
        { method := "GET", url := url,
          header := [(AcceptHeader, a), (XPrometheusScrapeTimeoutHeader, t)] }
      = Except.ok resp) :
    (resp.statusCode < 200 ∨ resp.statusCode > 300 →
      (Get env st url a t).1
        = (none, some (ScrapeError.httpStatus resp.statusCode))) ∧
    (200 ≤ resp.statusCode → resp.statusCode ≤ 300 →
      ∀ c, (Get env st url a t).1.2 ≠ some (ScrapeError.httpStatus c)) := by
  constructor
  · intro hc
    simp only [Get, h1, h2, if_pos hc]
  · intro hlo hhi c
    have hc : ¬(resp.statusCode < 200 ∨ resp.statusCode > 300) := by omega
    simp only [Get, h1, h2, if_neg hc]
    rcases hb : resp.body with e | body
    · simp
    · rcases hdl : decodeLoop (env.decode body).1 (env.decode body).2 []
          with e | m <;> simp [hdl]

/-- Witness for C1 at status codes 199, 301 (rejected) and 200, 300
(not rejected by the status check). -/
theorem get_status_boundary_witness :
    (Get (mkEnv ⟨199, Except.ok []⟩ ([], none)) st0 "http://x" "text/plain" "5").1
      = (none, some (ScrapeError.httpStatus 199)) ∧
    (Get (mkEnv ⟨301, Except.ok []⟩ ([], none)) st0 "http://x" "text/plain" "5").1
      = (none, some (ScrapeError.httpStatus 301)) ∧
    (Get (mkEnv ⟨200, Except.ok []⟩ ([], none)) st0 "http://x" "text/plain" "5").1.2
      ≠ some (ScrapeError.httpStatus 200) ∧
    (Get (mkEnv ⟨300, Except.ok []⟩ ([], none)) st0 "http://x" "text/plain" "5").1.2
      ≠ some (ScrapeError.httpStatus 300) :=
  ⟨(get_status_boundary (mkEnv ⟨199, Except.ok []⟩ ([], none)) st0
      "http://x" "text/plain" "5" ⟨199, Except.ok []⟩ rfl rfl).1
      (by decide),
   (get_status_boundary (mkEnv ⟨301, Except.ok []⟩ ([], none)) st0
      "http://x" "text/plain" "5" ⟨301, Except.ok []⟩ rfl rfl).1
      (by decide),
   (get_status_boundary (mkEnv ⟨200, Except.ok []⟩ ([], none)) st0
      "http://x" "text/plain" "5" ⟨200, Except.ok []⟩ rfl rfl).2
      (by decide) (by decide) 200,
   (get_status_boundary (mkEnv ⟨300, Except.ok []⟩ ([], none)) st0
      "http://x" "text/plain" "5" ⟨300, Except.ok []⟩ rfl rfl).2
      (by decide) (by decide) 300⟩

/-- C2: when the decoder fails with an error other than clean end-of-input,
`Get` returns a `nil` mapping together with that decode error — whatever
families were decoded before the failure, the result is never a mapping
holding them (and the metrics state is untouched). -/
theorem get_decode_failure_atomic (env : ScrapeEnv) (st : Metrics)
    (url a t : String) (resp : Response) (body : List Nat)
    (fams : List MetricFamily) (e : String)
    (h1 : env.urlCheck url = none)
    (h2 : env.doRequest
        { method := "GET", url := url,
          header := [(AcceptHeader, a), (XPrometheusScrapeTimeoutHeader, t)] }
      = Except.ok resp)
    (h3 : ¬(resp.statusCode < 200 ∨ resp.statusCode > 300))
    (h4 : resp.body = Except.ok body)
    (h5 : env.decode body = (fams, some e)) :
    Get env st url a t = ((none, some (ScrapeError.decode e)), st) := by
  simp only [Get, h1, h2, if_neg h3, h4, h5, decodeLoop_error]

/-- Witness for C2: a body whose first two families decode and whose third
record is malformed yields `nil`, not a two-entry mapping. -/
theorem get_decode_failure_atomic_witness :
    Get (mkEnv ⟨200, Except.ok [35, 10]⟩
          ([fam "a" "first", fam "b" "second"], some "text format parsing error"))
        st0 "http://x" "text/plain" "5"
      = ((none, some (ScrapeError.decode "text format parsing error")), st0) :=
  get_decode_failure_atomic
    (mkEnv ⟨200, Except.ok [35, 10]⟩
      ([fam "a" "first", fam "b" "second"], some "text format parsing error"))
    st0 "http://x" "text/plain" "5" ⟨200, Except.ok [35, 10]⟩ [35, 10]
    [fam "a" "first", fam "b" "second"] "text format parsing error"
    rfl rfl (by decide) rfl rfl

/-- C3: whenever `Get` returns an error (of any of the five kinds), the
metrics state — the per-target size gauge vector and the cumulative
scraped-bytes counter — is exactly what it was before the call. -/
theorem get_failure_preserves_metrics (env : ScrapeEnv) (st : Metrics)
    (url a t : String) (err : ScrapeError)
    (h : (Get env st url a t).1.2 = some err) :
    (Get env st url a t).2 = st := by
  rcases get_shape env st url a t with
    ⟨e, hg⟩ | ⟨e, hg⟩ | ⟨c, hg⟩ | ⟨e, hg⟩ | ⟨e, hg⟩ | ⟨m, n, hg⟩ <;>
    rw [hg] at h ⊢
  simp_all

/-- Witness for C3 at a request-construction failure. -/
theorem get_failure_preserves_metrics_witness :
    (Get badUrlEnv st0 "://x" "text/plain" "5").2 = st0 :=
  get_failure_preserves_metrics badUrlEnv st0 "://x" "text/plain" "5"
    (ScrapeError.requestConstruction "missing protocol scheme") rfl

/-- The result mapping that accompanies each error kind: `nil` for
HTTP-status rejection and decode failure, the empty non-`nil` mapping for
the other three kinds. -/
def errResultShape : ScrapeError → Option MetricFamiliesByName
  | ScrapeError.httpStatus _ => none
  | ScrapeError.decode _ => none
  | _ => some []

/-- C4: the shape of a failing result depends on the error kind:
request-construction, transport and body-read failures come with an empty
but non-`nil` mapping, while HTTP-status rejection (and decode failure)
comes with a `nil` mapping. -/
theorem get_error_result_shape (env : ScrapeEnv) (st : Metrics)
    (url a t : String) (err : ScrapeError)
    (h : (Get env st url a t).1.2 = some err) :
    (Get env st url a t).1.1 = errResultShape err := by
  rcases get_shape env st url a t with
    ⟨e, hg⟩ | ⟨e, hg⟩ | ⟨c, hg⟩ | ⟨e, hg⟩ | ⟨e, hg⟩ | ⟨m, n, hg⟩
  · rw [hg] at h; obtain rfl := Option.some.inj h; rw [hg]; rfl
  · rw [hg] at h; obtain rfl := Option.some.inj h; rw [hg]; rfl
  · rw [hg] at h; obtain rfl := Option.some.inj h; rw [hg]; rfl
  · rw [hg] at h; obtain rfl := Option.some.inj h; rw [hg]; rfl
  · rw [hg] at h; obtain rfl := Option.some.inj h; rw [hg]; rfl
  · rw [hg] at h; simp at h

/-- Witness for C4: a malformed-URL failure returns the empty, non-`nil`
mapping. -/
theorem get_error_result_shape_witness :
    (Get badUrlEnv st0 "://x" "text/plain" "5").1.1 = some [] :=
  get_error_result_shape badUrlEnv st0 "://x" "text/plain" "5"
    (ScrapeError.requestConstruction "missing protocol scheme") rfl

/-- C5: after a successful call against `url` with an `N`-byte body, the
size gauge series labelled `url` reads exactly `N` (replacing any prior
value) and the cumulative scraped-bytes counter equals its pre-call value
plus exactly `N`. -/
theorem get_success_accounting (env : ScrapeEnv) (st : Metrics)
    (url a t : String) (resp : Response) (body : List Nat)
    (m : MetricFamiliesByName)
    (h1 : env.urlCheck url = none)
    (h2 : env.doRequest
        { method := "GET", url := url,
          header := [(AcceptHeader, a), (XPrometheusScrapeTimeoutHeader, t)] }
      = Except.ok resp)
    (h3 : ¬(resp.statusCode < 200 ∨ resp.statusCode > 300))
    (h4 : resp.body = Except.ok body)
    (h5 : decodeLoop (env.decode body).1 (env.decode body).2 []
      = Except.ok m) :
    gaugeGet (Get env st url a t).2.targetSize url = some ((body.length : Rat)) ∧
    (Get env st url a t).2.totalScrapedPayload
      = st.totalScrapedPayload + ((body.length : Rat)) := by
  simp only [Get, h1, h2, if_neg h3, h4, h5]
  exact ⟨gaugeGet_set_self st.targetSize url _, trivial⟩

/-- Witness for C5: a successful scrape with a 2-byte body sets the gauge
for the target to 2 and adds 2 to the counter. -/
theorem get_success_accounting_witness :
    gaugeGet (Get (mkEnv ⟨200, Except.ok [35, 10]⟩ ([fam "a" ""], none))
        st0 "http://x" "text/plain" "5").2.targetSize "http://x"
      = some ((2 : Nat) : Rat) ∧
    (Get (mkEnv ⟨200, Except.ok [35, 10]⟩ ([fam "a" ""], none))
        st0 "http://x" "text/plain" "5").2.totalScrapedPayload
      = st0.totalScrapedPayload + ((2 : Nat) : Rat) :=
  get_success_accounting (mkEnv ⟨200, Except.ok [35, 10]⟩ ([fam "a" ""], none))
    st0 "http://x" "text/plain" "5" ⟨200, Except.ok [35, 10]⟩ [35, 10]
    [("a", fam "a" "")] rfl rfl (by decide) rfl rfl

/-- C6: on a successful call, looking any name up in the result mapping
gives the last-decoded family with that name (the first one in
reverse-decode order): later duplicates overwrite earlier ones, with no
merging. -/
theorem get_duplicate_overwrite (env : ScrapeEnv) (st : Metrics)
    (url a t : String) (resp : Response) (body : List Nat)
    (m : MetricFamiliesByName)
    (h1 : env.urlCheck url = none)
    (h2 : env.doRequest
        { method := "GET", url := url,
          header := [(AcceptHeader, a), (XPrometheusScrapeTimeoutHeader, t)] }
      = Except.ok resp)
    (h3 : ¬(resp.statusCode < 200 ∨ resp.statusCode > 300))
    (h4 : resp.body = Except.ok body)
    (h5 : decodeLoop (env.decode body).1 (env.decode body).2 []
      = Except.ok m) :
    (Get env st url a t).1.1 = some m ∧
    ∀ n, mapGet m n
      = (env.decode body).1.reverse.find? (fun f => f.name == n) := by
  constructor
  · simp only [Get, h1, h2, if_neg h3, h4, h5]
  · exact mapGet_decode (env.decode body).1 (env.decode body).2 m h5

/-- Witness for C6: a body whose decoder yields two families both named
`dup` produces a mapping whose only entry for `dup` is the second one. -/
theorem get_duplicate_overwrite_witness :
    (Get (mkEnv ⟨200, Except.ok [1]⟩
          ([fam "dup" "first", fam "dup" "second"], none))
        st0 "http://x" "text/plain" "5").1.1
      = some [("dup", fam "dup" "second")] ∧
    mapGet [("dup", fam "dup" "second")] "dup" = some (fam "dup" "second") :=
  ⟨(get_duplicate_overwrite
      (mkEnv ⟨200, Except.ok [1]⟩ ([fam "dup" "first", fam "dup" "second"], none))
      st0 "http://x" "text/plain" "5" ⟨200, Except.ok [1]⟩ [1]
      [("dup", fam "dup" "second")] rfl rfl (by decide) rfl rfl).1,
   (get_duplicate_overwrite
      (mkEnv ⟨200, Except.ok [1]⟩ ([fam "dup" "first", fam "dup" "second"], none))
      st0 "http://x" "text/plain" "5" ⟨200, Except.ok [1]⟩ [1]
      [("dup", fam "dup" "second")] rfl rfl (by decide) rfl rfl).2 "dup"⟩

/-- C7: when the decoded families have pairwise distinct names, the call
succeeds with a mapping whose key set is exactly the set of those names and
where each name maps to its family unchanged. -/
theorem get_distinct_names_roundtrip (env : ScrapeEnv) (st : Metrics)
    (url a t : String) (resp : Response) (body : List Nat)
    (m : MetricFamiliesByName)
    (h1 : env.urlCheck url = none)
    (h2 : env.doRequest
        { method := "GET", url := url,
          header := [(AcceptHeader, a), (XPrometheusScrapeTimeoutHeader, t)] }
      = Except.ok resp)
    (h3 : ¬(resp.statusCode < 200 ∨ resp.statusCode > 300))
    (h4 : resp.body = Except.ok body)
    (h5 : decodeLoop (env.decode body).1 (env.decode body).2 []
      = Except.ok m)
    (hnodup : ((env.decode body).1.map (fun f => f.name)).Nodup) :
    (Get env st url a t).1 = (some m, none) ∧
    (∀ n, n ∈ mapKeys m ↔ n ∈ (env.decode body).1.map (fun f => f.name)) ∧
    (∀ f, f ∈ (env.decode body).1 → mapGet m f.name = some f) := by
  have hget : ∀ n, mapGet m n
      = (env.decode body).1.reverse.find? (fun f => f.name == n) :=
    mapGet_decode (env.decode body).1 (env.decode body).2 m h5
  refine ⟨?_, ?_, ?_⟩
  · simp only [Get, h1, h2, if_neg h3, h4, h5]
  · intro n
    rw [mem_mapKeys_iff, hget]
    simp only [List.find?_isSome, List.mem_reverse, List.mem_map, beq_iff_eq]
  · intro f hf
    rw [hget]
    obtain ⟨g, hg⟩ : ∃ g,
        (env.decode body).1.reverse.find? (fun x => x.name == f.name)
          = some g :=
      Option.isSome_iff_exists.mp
        (List.find?_isSome.mpr ⟨f, List.mem_reverse.mpr hf, by simp⟩)
    rw [hg]
    have hgm : g ∈ (env.decode body).1 :=
      List.mem_reverse.mp (List.mem_of_find?_eq_some hg)
    have hname : g.name = f.name := by simpa using List.find?_some hg
    rw [List.inj_on_of_nodup_map hnodup hgm hf hname]

/-- Witness for C7 at the three distinct names `a`, `b`, `c`. -/
theorem get_distinct_names_roundtrip_witness :
    (Get (mkEnv ⟨200, Except.ok [1, 2, 3]⟩
          ([fam "a" "ha", fam "b" "hb", fam "c" "hc"], none))
        st0 "http://x" "text/plain" "5").1
      = (some [("a", fam "a" "ha"), ("b", fam "b" "hb"), ("c", fam "c" "hc")],
         none) ∧
    mapGet [("a", fam "a" "ha"), ("b", fam "b" "hb"), ("c", fam "c" "hc")] "b"
      = some (fam "b" "hb") :=
  ⟨(get_distinct_names_roundtrip
      (mkEnv ⟨200, Except.ok [1, 2, 3]⟩
        ([fam "a" "ha", fam "b" "hb", fam "c" "hc"], none))
      st0 "http://x" "text/plain" "5" ⟨200, Except.ok [1, 2, 3]⟩ [1, 2, 3]
      [("a", fam "a" "ha"), ("b", fam "b" "hb"), ("c", fam "c" "hc")]
      rfl rfl (by decide) rfl rfl (by decide)).1,
   (get_distinct_names_roundtrip
      (mkEnv ⟨200, Except.ok [1, 2, 3]⟩
        ([fam "a" "ha", fam "b" "hb", fam "c" "hc"], none))
      st0 "http://x" "text/plain" "5" ⟨200, Except.ok [1, 2, 3]⟩ [1, 2, 3]
      [("a", fam "a" "ha"), ("b", fam "b" "hb"), ("c", fam "c" "hc")]
      rfl rfl (by decide) rfl rfl (by decide)).2.2 (fam "b" "hb") (by decide)⟩

/-- C8: on a well-formed URL, the only request `Get` hands to the transport
is the `GET` request for that URL carrying exactly the two headers
`Accept = acceptHeader` and
`X-Prometheus-Scrape-Timeout-Seconds = fetchTimeout`, unchanged: two
environments that agree on that one request (and on URL parsing and
decoding) make `Get` behave identically, whatever they answer elsewhere. -/
theorem get_request_shape (env env₂ : ScrapeEnv) (st : Metrics)
    (url a t : String)
    (hurl : env.urlCheck url = env₂.urlCheck url)
    (hdec : env.decode = env₂.decode)
    (hdo : env.doRequest
        { method := "GET", url := url,
          header := [(AcceptHeader, a), (XPrometheusScrapeTimeoutHeader, t)] }
      = env₂.doRequest
        { method := "GET", url := url,
          header := [(AcceptHeader, a), (XPrometheusScrapeTimeoutHeader, t)] }) :
    Get env st url a t = Get env₂ st url a t := by
  unfold Get
  rw [hurl, hdo, hdec]

/-- Witness for C8: an environment answering every request and one
answering only requests whose header list has exactly the two entries give
the same run. -/
theorem get_request_shape_witness :
    Get (mkEnv ⟨204, Except.ok []⟩ ([], none)) st0 "http://x" "text/plain" "5"
      = Get ⟨fun _ => none,
             fun r => if r.header.length = 2
               then Except.ok ⟨204, Except.ok []⟩
               else Except.error "unexpected request",
             fun _ => ([], none)⟩ st0 "http://x" "text/plain" "5" :=
  get_request_shape (mkEnv ⟨204, Except.ok []⟩ ([], none))
    ⟨fun _ => none,
     fun r => if r.header.length = 2
       then Except.ok ⟨204, Except.ok []⟩
       else Except.error "unexpected request",
     fun _ => ([], none)⟩
    st0 "http://x" "text/plain" "5" rfl rfl rfl

/-- C9: a successful `Get` never returns a `nil` mapping — in particular an
accepted response with a zero-length body succeeds with the empty non-`nil`
mapping, sets the target's gauge series to 0 and adds 0 to the counter —
and conversely a `nil` result only ever comes with an error. -/
theorem get_nil_only_with_error (env : ScrapeEnv) (st : Metrics)
    (url a t : String) (resp : Response)
    (h1 : env.urlCheck url = none)
    (h2 : env.doRequest
        { method := "GET", url := url,
          header := [(AcceptHeader, a), (XPrometheusScrapeTimeoutHeader, t)] }
      = Except.ok resp)
    (h3 : ¬(resp.statusCode < 200 ∨ resp.statusCode > 300))
    (h4 : resp.body = Except.ok [])
    (h5 : env.decode [] = ([], none)) :
    Get env st url a t
      = ((some [], none),
         { targetSize := gaugeSet st.targetSize url 0,
           totalScrapedPayload := st.totalScrapedPayload + 0 }) ∧
    (∀ (env₂ : ScrapeEnv) (st₂ : Metrics) (u₂ a₂ t₂ : String),
        (Get env₂ st₂ u₂ a₂ t₂).1.2 = none →
          (Get env₂ st₂ u₂ a₂ t₂).1.1 ≠ none) ∧
    (∀ (env₂ : ScrapeEnv) (st₂ : Metrics) (u₂ a₂ t₂ : String),
        (Get env₂ st₂ u₂ a₂ t₂).1.1 = none →
          (Get env₂ st₂ u₂ a₂ t₂).1.2 ≠ none) := by
  refine ⟨?_, ?_, ?_⟩
  · simp only [Get, h1, h2, if_neg h3, h4, h5, decodeLoop, List.length_nil,
      Nat.cast_zero]
  · intro env₂ st₂ u₂ a₂ t₂ h
    rcases get_shape env₂ st₂ u₂ a₂ t₂ with
      ⟨e, hg⟩ | ⟨e, hg⟩ | ⟨c, hg⟩ | ⟨e, hg⟩ | ⟨e, hg⟩ | ⟨m, n, hg⟩ <;>
      rw [hg] at h ⊢ <;> simp_all
  · intro env₂ st₂ u₂ a₂ t₂ h
    rcases get_shape env₂ st₂ u₂ a₂ t₂ with
      ⟨e, hg⟩ | ⟨e, hg⟩ | ⟨c, hg⟩ | ⟨e, hg⟩ | ⟨e, hg⟩ | ⟨m, n, hg⟩ <;>
      rw [hg] at h ⊢ <;> simp_all

/-- Witness for C9 at a 204 response with an empty body. -/
theorem get_nil_only_with_error_witness :
    Get (mkEnv ⟨204, Except.ok []⟩ ([], none)) st0 "http://x" "text/plain" "5"
      = ((some [], none),
         { targetSize := gaugeSet st0.targetSize "http://x" 0,
           totalScrapedPayload := st0.totalScrapedPayload + 0 }) :=
  (get_nil_only_with_error (mkEnv ⟨204, Except.ok []⟩ ([], none)) st0
    "http://x" "text/plain" "5" ⟨204, Except.ok []⟩
    rfl rfl (by decide) rfl rfl).1

/-- C10: a call against `url` never touches the gauge series of any other
target: for every `T ≠ url` the series labelled `T` is unchanged (on
failure nothing is touched at all; on success only the `url` series is
replaced). -/
theorem get_other_targets_unchanged (env : ScrapeEnv) (st : Metrics)
    (url a t T : String) (hne : T ≠ url) :
    gaugeGet (Get env st url a t).2.targetSize T
      = gaugeGet st.targetSize T := by
  rcases get_shape env st url a t with
    ⟨e, hg⟩ | ⟨e, hg⟩ | ⟨c, hg⟩ | ⟨e, hg⟩ | ⟨e, hg⟩ | ⟨m, n, hg⟩ <;> rw [hg]
  exact gaugeGet_set_ne st.targetSize url n T hne

/-- Witness for C10: a successful scrape of `http://x` leaves the gauge
series of `http://other` unchanged. -/
theorem get_other_targets_unchanged_witness :
    gaugeGet (Get (mkEnv ⟨200, Except.ok [35, 10]⟩ ([fam "a" ""], none))
        st0 "http://x" "text/plain" "5").2.targetSize "http://other"
      = gaugeGet st0.targetSize "http://other" :=
  get_other_targets_unchanged
    (mkEnv ⟨200, Except.ok [35, 10]⟩ ([fam "a" ""], none))
    st0 "http://x" "text/plain" "5" "http://other" (by decide)

end NriPrometheus
